import Mathlib

/-!
# Verification of the pixi3d camera / mesh-shader extension layer

A shallow embedding of the repository's `Camera` class (src/camera/camera.ts)
and `MeshShader` class, together with the linear-algebra helpers
(`Mat4`, `Vec3`, `Vec4`) and the `MatrixComponent` cache they use.

JavaScript numbers are modelled by the rationals `ℚ`; the transcendental
functions the code needs (`Math.tan`, `Math.PI`, the square root inside
`Math.hypot`) are abstracted into a bundle `MathOps` of uninterpreted
functions, since none of the verified properties depend on their values.
Mutable objects become explicit state threading: every getter of the camera
returns the updated camera next to its value, mirroring the lazy
`MatrixComponent` caches that the getters fill in.
-/

set_option autoImplicit false

/-- Abstraction of the transcendental operations of JavaScript `Math` used by
the camera code: `Math.PI`, `Math.tan` and the square root underlying
`Math.hypot`.  The verified properties hold for every interpretation. -/
structure MathOps where
  pi : ℚ
  tan : ℚ → ℚ
  sqrt : ℚ → ℚ
deriving Inhabited

/-- A 3-component vector (`Float32Array` of length 3 / `vec3`). -/
structure V3 where
  x : ℚ
  y : ℚ
  z : ℚ
deriving DecidableEq, Repr, Inhabited

/-- A 4-component vector (`Float32Array` of length 4 / `vec4`). -/
structure V4 where
  x : ℚ
  y : ℚ
  z : ℚ
  w : ℚ
deriving DecidableEq, Repr, Inhabited

/-- A 4×4 matrix stored column-major as in gl-matrix / `Float32Array(16)`:
`m0..m3` is the first column, `m4..m7` the second, and so on.  Entry `m(4*c+r)`
is the entry in row `r`, column `c` of the mathematical matrix. -/
structure M4 where
  m0 : ℚ
  m1 : ℚ
  m2 : ℚ
  m3 : ℚ
  m4 : ℚ
  m5 : ℚ
  m6 : ℚ
  m7 : ℚ
  m8 : ℚ
  m9 : ℚ
  m10 : ℚ
  m11 : ℚ
  m12 : ℚ
  m13 : ℚ
  m14 : ℚ
  m15 : ℚ
deriving DecidableEq, Repr, Inhabited

namespace Vec3

/-- Modelled from the spec: `Vec3.add` (src/math/vec3.ts wraps gl-matrix
`vec3.add`, not included under src/) — componentwise vector addition. -/
def add (a b : V3) : V3 :=
  ⟨a.x + b.x, a.y + b.y, a.z + b.z⟩

end Vec3

namespace Vec4

/-- Modelled from the spec: `Vec4.set` (src/math/vec4.ts wraps gl-matrix
`vec4.set`, not included under src/) — builds the vector from components. -/
def set (x y z w : ℚ) : V4 := ⟨x, y, z, w⟩

/-- Modelled from the spec: `Vec4.transformMat4` (src/math/vec4.ts wraps
gl-matrix `vec4.transformMat4`, not included under src/) — multiplies the
column-major matrix `m` with the column vector `a`. -/
def transformMat4 (a : V4) (m : M4) : V4 :=
  ⟨m.m0 * a.x + m.m4 * a.y + m.m8 * a.z + m.m12 * a.w,
   m.m1 * a.x + m.m5 * a.y + m.m9 * a.z + m.m13 * a.w,
   m.m2 * a.x + m.m6 * a.y + m.m10 * a.z + m.m14 * a.w,
   m.m3 * a.x + m.m7 * a.y + m.m11 * a.z + m.m15 * a.w⟩

end Vec4

namespace Mat4

/-- Modelled from the spec: `Mat4.perspective` (src/math/mat4.ts wraps
gl-matrix `mat4.perspective`, not included under src/) — the standard
perspective projection matrix; `far` is always a finite number here, so the
finite-`far` branch of the reference implementation applies.
In the field `ℚ`, `1/(near - far)` is `0` when `near = far`, matching the
reference only up to the IEEE infinities that case produces there. -/
def perspective (T : MathOps) (fovy aspect near far : ℚ) : M4 :=
  let f := 1 / T.tan (fovy / 2)
  let nf := 1 / (near - far)
  { m0 := f / aspect, m1 := 0, m2 := 0, m3 := 0
    m4 := 0, m5 := f, m6 := 0, m7 := 0
    m8 := 0, m9 := 0, m10 := (far + near) * nf, m11 := -1
    m12 := 0, m13 := 0, m14 := 2 * far * near * nf, m15 := 0 }

/-- The identity matrix (gl-matrix `mat4.identity`), used by the degenerate
branch of `lookAt`. -/
def identity : M4 :=
  { m0 := 1, m1 := 0, m2 := 0, m3 := 0
    m4 := 0, m5 := 1, m6 := 0, m7 := 0
    m8 := 0, m9 := 0, m10 := 1, m11 := 0
    m12 := 0, m13 := 0, m14 := 0, m15 := 1 }

/-- `Math.hypot` on three arguments, via the abstract square root. -/
def hypot3 (T : MathOps) (a b c : ℚ) : ℚ :=
  T.sqrt (a * a + b * b + c * c)

/-- gl-matrix `EPSILON = 0.000001`. -/
def glEpsilon : ℚ := 1 / 1000000

/-- Modelled from the spec: `Mat4.lookAt` (src/math/mat4.ts wraps gl-matrix
`mat4.lookAt`, not included under src/) — the standard look-at view matrix
built from the camera basis `x`, `y`, `z`, with the reference implementation's
epsilon short-circuit and zero-length guards. -/
def lookAt (T : MathOps) (eye center up : V3) : M4 :=
  if |eye.x - center.x| < glEpsilon ∧ |eye.y - center.y| < glEpsilon ∧
      |eye.z - center.z| < glEpsilon then
    identity
  else
    let z0 := eye.x - center.x
    let z1 := eye.y - center.y
    let z2 := eye.z - center.z
    let lenz := 1 / hypot3 T z0 z1 z2
    let z0 := z0 * lenz
    let z1 := z1 * lenz
    let z2 := z2 * lenz
    let x0 := up.y * z2 - up.z * z1
    let x1 := up.z * z0 - up.x * z2
    let x2 := up.x * z1 - up.y * z0
    let lx := hypot3 T x0 x1 x2
    let x0 := if lx = 0 then 0 else x0 * (1 / lx)
    let x1 := if lx = 0 then 0 else x1 * (1 / lx)
    let x2 := if lx = 0 then 0 else x2 * (1 / lx)
    let y0 := z1 * x2 - z2 * x1
    let y1 := z2 * x0 - z0 * x2
    let y2 := z0 * x1 - z1 * x0
    let ly := hypot3 T y0 y1 y2
    let y0 := if ly = 0 then 0 else y0 * (1 / ly)
    let y1 := if ly = 0 then 0 else y1 * (1 / ly)
    let y2 := if ly = 0 then 0 else y2 * (1 / ly)
    { m0 := x0, m1 := y0, m2 := z0, m3 := 0
      m4 := x1, m5 := y1, m6 := z1, m7 := 0
      m8 := x2, m9 := y2, m10 := z2, m11 := 0
      m12 := -(x0 * eye.x + x1 * eye.y + x2 * eye.z)
      m13 := -(y0 * eye.x + y1 * eye.y + y2 * eye.z)
      m14 := -(z0 * eye.x + z1 * eye.y + z2 * eye.z)
      m15 := 1 }

/-- Modelled from the spec: `Mat4.multiply` (src/math/mat4.ts wraps gl-matrix
`mat4.multiply`, not included under src/) — `multiply a b` is the matrix
product `a * b` in column-major storage. -/
def multiply (a b : M4) : M4 :=
  { m0 := b.m0 * a.m0 + b.m1 * a.m4 + b.m2 * a.m8 + b.m3 * a.m12
    m1 := b.m0 * a.m1 + b.m1 * a.m5 + b.m2 * a.m9 + b.m3 * a.m13
    m2 := b.m0 * a.m2 + b.m1 * a.m6 + b.m2 * a.m10 + b.m3 * a.m14
    m3 := b.m0 * a.m3 + b.m1 * a.m7 + b.m2 * a.m11 + b.m3 * a.m15
    m4 := b.m4 * a.m0 + b.m5 * a.m4 + b.m6 * a.m8 + b.m7 * a.m12
    m5 := b.m4 * a.m1 + b.m5 * a.m5 + b.m6 * a.m9 + b.m7 * a.m13
    m6 := b.m4 * a.m2 + b.m5 * a.m6 + b.m6 * a.m10 + b.m7 * a.m14
    m7 := b.m4 * a.m3 + b.m5 * a.m7 + b.m6 * a.m11 + b.m7 * a.m15
    m8 := b.m8 * a.m0 + b.m9 * a.m4 + b.m10 * a.m8 + b.m11 * a.m12
    m9 := b.m8 * a.m1 + b.m9 * a.m5 + b.m10 * a.m9 + b.m11 * a.m13
    m10 := b.m8 * a.m2 + b.m9 * a.m6 + b.m10 * a.m10 + b.m11 * a.m14
    m11 := b.m8 * a.m3 + b.m9 * a.m7 + b.m10 * a.m11 + b.m11 * a.m15
    m12 := b.m12 * a.m0 + b.m13 * a.m4 + b.m14 * a.m8 + b.m15 * a.m12
    m13 := b.m12 * a.m1 + b.m13 * a.m5 + b.m14 * a.m9 + b.m15 * a.m13
    m14 := b.m12 * a.m2 + b.m13 * a.m6 + b.m14 * a.m10 + b.m15 * a.m14
    m15 := b.m12 * a.m3 + b.m13 * a.m7 + b.m14 * a.m11 + b.m15 * a.m15 }

/-- Modelled from the spec: `Mat4.invert` (src/math/mat4.ts wraps gl-matrix
`mat4.invert`, not included under src/) — the adjugate-based inverse, `none`
when the determinant is zero (the reference returns `null` on a falsy
determinant). -/
def invert (a : M4) : Option M4 :=
  let b00 := a.m0 * a.m5 - a.m1 * a.m4
  let b01 := a.m0 * a.m6 - a.m2 * a.m4
  let b02 := a.m0 * a.m7 - a.m3 * a.m4
  let b03 := a.m1 * a.m6 - a.m2 * a.m5
  let b04 := a.m1 * a.m7 - a.m3 * a.m5
  let b05 := a.m2 * a.m7 - a.m3 * a.m6
  let b06 := a.m8 * a.m13 - a.m9 * a.m12
  let b07 := a.m8 * a.m14 - a.m10 * a.m12
  let b08 := a.m8 * a.m15 - a.m11 * a.m12
  let b09 := a.m9 * a.m14 - a.m10 * a.m13
  let b10 := a.m9 * a.m15 - a.m11 * a.m13
  let b11 := a.m10 * a.m15 - a.m11 * a.m14
  let det := b00 * b11 - b01 * b10 + b02 * b09 + b03 * b08 - b04 * b07 + b05 * b06
  if det = 0 then none
  else
    let d := 1 / det
    some
      { m0 := (a.m5 * b11 - a.m6 * b10 + a.m7 * b09) * d
        m1 := (a.m2 * b10 - a.m1 * b11 - a.m3 * b09) * d
        m2 := (a.m13 * b05 - a.m14 * b04 + a.m15 * b03) * d
        m3 := (a.m10 * b04 - a.m9 * b05 - a.m11 * b03) * d
        m4 := (a.m6 * b08 - a.m4 * b11 - a.m7 * b07) * d
        m5 := (a.m0 * b11 - a.m2 * b08 + a.m3 * b07) * d
        m6 := (a.m14 * b02 - a.m12 * b05 - a.m15 * b01) * d
        m7 := (a.m8 * b05 - a.m10 * b02 + a.m11 * b01) * d
        m8 := (a.m4 * b10 - a.m5 * b08 + a.m7 * b06) * d
        m9 := (a.m1 * b08 - a.m0 * b10 - a.m3 * b06) * d
        m10 := (a.m12 * b04 - a.m13 * b02 + a.m15 * b00) * d
        m11 := (a.m9 * b02 - a.m8 * b04 - a.m11 * b00) * d
        m12 := (a.m5 * b07 - a.m4 * b09 - a.m6 * b06) * d
        m13 := (a.m0 * b09 - a.m1 * b07 + a.m2 * b06) * d
        m14 := (a.m13 * b01 - a.m12 * b03 - a.m14 * b00) * d
        m15 := (a.m8 * b03 - a.m9 * b01 + a.m10 * b00) * d }

end Mat4

/-- JavaScript truthiness of the optional aspect value: `undefined` (here
`none`) and `0` are falsy.  `camera.ts` tests the aspect with `!this._aspect`
and `this._aspect || ...`, so both follow this predicate. -/
def jsFalsy (a : Option ℚ) : Bool :=
  match a with
  | none => true
  | some q => q = 0

/-- Modelled from the spec: `MatrixComponent` (src/transform/matrix-component.ts,
not included under src/) — "cached projection/view/view-projection matrices
... a cache keyed to a host-engine transform identifier (`_worldID`) and
invalidated via a manually incremented dirty counter", read lazily: the
stored key is compared against the parent's current `id`. -/
structure MComp (β : Type) where
  key : Option ℕ
  array : β
deriving DecidableEq, Repr

/-- Modelled from the spec: the `array` getter of `MatrixComponent` — when the
stored key differs from the parent's current `id` the array is recomputed via
`update` and the key stamped; otherwise the cached array is returned
unchanged. -/
def MComp.read {β : Type} (c : MComp β) (pid : ℕ) (update : β → β) : MComp β × β :=
  if c.key = some pid then (c, c.array)
  else
    let a := update c.array
    ({ key := some pid, array := a }, a)

/-- The part of the host-engine world transform the camera reads:
`worldTransform.position`, `worldTransform.forward`, `worldTransform.up`. -/
structure World where
  position : V3
  forward : V3
  up : V3
deriving DecidableEq, Repr, Inhabited

/-- The state of a `Camera` (src/camera/camera.ts).  `transformWorldID` is the
host transform's `_worldID`; `rendererWidth`/`rendererHeight` are the host
renderer's dimensions; `hasParent` tells whether the camera is attached to the
scene hierarchy; the four `MComp` fields are the lazily created
`MatrixComponent` caches. -/
structure Camera where
  idc : ℕ
  fov : ℚ
  nearP : ℚ
  farP : ℚ
  asp : Option ℚ
  transformWorldID : ℕ
  world : World
  rendererWidth : ℚ
  rendererHeight : ℚ
  hasParent : Bool
  projC : Option (MComp M4)
  targetC : Option (MComp V3)
  viewC : Option (MComp M4)
  viewProjC : Option (MComp M4)
deriving DecidableEq, Repr

namespace Camera

/-- `get id() { return this.transform._worldID + this._id }`. -/
def id (c : Camera) : ℕ :=
  c.transformWorldID + c.idc

/-- `set fieldOfView(value) { if (this._fieldOfView !== value) { this._fieldOfView = value; this._id++ } }`. -/
def setFieldOfView (c : Camera) (v : ℚ) : Camera :=
  if c.fov ≠ v then { c with fov := v, idc := c.idc + 1 } else c

/-- `set near(value) { if (this._near !== value) { this._near = value; this._id++ } }`. -/
def setNear (c : Camera) (v : ℚ) : Camera :=
  if c.nearP ≠ v then { c with nearP := v, idc := c.idc + 1 } else c

/-- `set far(value) { if (this._far !== value) { this._far = value; this._id++ } }`. -/
def setFar (c : Camera) (v : ℚ) : Camera :=
  if c.farP ≠ v then { c with farP := v, idc := c.idc + 1 } else c

/-- `set aspect(value) { if (this._aspect !== value) { this._aspect = value; this._id++ } }`. -/
def setAspect (c : Camera) (v : Option ℚ) : Camera :=
  if c.asp ≠ v then { c with asp := v, idc := c.idc + 1 } else c

/-- The aspect ratio the projection update actually uses:
`this._aspect || this.renderer.width / this.renderer.height`, with JavaScript
`||` falling through on `undefined` and on `0`. -/
def effectiveAspect (c : Camera) : ℚ :=
  match c.asp with
  | some a => if a = 0 then c.rendererWidth / c.rendererHeight else a
  | none => c.rendererWidth / c.rendererHeight

/-- The update function of the `_projection` component:
`Mat4.perspective(this._fieldOfView * (Math.PI / 180), this._aspect || this.renderer.width / this.renderer.height, this._near, this._far, data)`. -/
def projectionUpdate (T : MathOps) (c : Camera) : M4 :=
  Mat4.perspective T (c.fov * (T.pi / 180)) c.effectiveAspect c.nearP c.farP

/-- The update function of the `_target` component:
`Vec3.add(this.worldTransform.position, this.worldTransform.forward, data)`. -/
def targetVal (c : Camera) : V3 :=
  Vec3.add c.world.position c.world.forward

/-- The value the `_view` component computes:
`Mat4.lookAt(this.worldTransform.position, this.target, this.worldTransform.up, data)`. -/
def viewVal (T : MathOps) (c : Camera) : M4 :=
  Mat4.lookAt T c.world.position c.targetVal c.world.up

/-- The value the `_viewProjection` component computes:
`Mat4.multiply(this.projection, this.view, data)`. -/
def vpVal (T : MathOps) (c : Camera) : M4 :=
  Mat4.multiply (c.projectionUpdate T) (c.viewVal T)

/-- `get projection()` — creates the `_projection` component on first use and
reads it through the `MatrixComponent` cache. -/
def getProjection (T : MathOps) (c : Camera) : Camera × M4 :=
  let comp := c.projC.getD ⟨none, default⟩
  let r := comp.read c.id (fun _ => c.projectionUpdate T)
  ({ c with projC := some r.1 }, r.2)

/-- `get target()` — creates the `_target` component on first use and reads it
through the `MatrixComponent` cache. -/
def getTarget (c : Camera) : Camera × V3 :=
  let comp := c.targetC.getD ⟨none, default⟩
  let r := comp.read c.id (fun _ => c.targetVal)
  ({ c with targetC := some r.1 }, r.2)

/-- `get view()` — the update closure reads `this.target`, a stateful getter,
so the camera is threaded through it. -/
def getView (T : MathOps) (c : Camera) : Camera × M4 :=
  let comp := c.viewC.getD ⟨none, default⟩
  if comp.key = some c.id then ({ c with viewC := some comp }, comp.array)
  else
    let rt := c.getTarget
    let a := Mat4.lookAt T rt.1.world.position rt.2 rt.1.world.up
    ({ rt.1 with viewC := some ⟨some rt.1.id, a⟩ }, a)

/-- `get viewProjection()` — the update closure reads `this.projection` and
`this.view`, both stateful getters, so the camera is threaded through them. -/
def getViewProjection (T : MathOps) (c : Camera) : Camera × M4 :=
  let comp := c.viewProjC.getD ⟨none, default⟩
  if comp.key = some c.id then ({ c with viewProjC := some comp }, comp.array)
  else
    let rp := c.getProjection T
    let rv := rp.1.getView T
    let a := Mat4.multiply rp.2 rv.2
    ({ rv.1 with viewProjC := some ⟨some rv.1.id, a⟩ }, a)

/-- The `prerender` callback registered in the constructor: bump the dirty
counter when `!this._aspect`, and update the transform manually when
`!this.parent`.  The host's `updateTransform` is abstracted as `updT` acting
on the transform's `_worldID` and world data. -/
def prerender (updT : ℕ × World → ℕ × World) (c : Camera) : Camera :=
  let c1 := if jsFalsy c.asp then { c with idc := c.idc + 1 } else c
  if c1.hasParent then c1
  else
    let w := updT (c1.transformWorldID, c1.world)
    { c1 with transformWorldID := w.1, world := w.2 }

/-- The constructor's `Camera.main` update: `if (!Camera.main) { Camera.main = this }`
(a constructed camera object is always truthy). -/
def registerMain (main : Option Camera) (c : Camera) : Option Camera :=
  match main with
  | none => some c
  | some m => some m

/-- `screenToWorld(x, y, distance, point)` — returns the camera after the
call, the final contents of `point`, and the returned value (`none` models the
bare `return` on failed inversion, which leaves `point` untouched). -/
def screenToWorld (T : MathOps) (c : Camera) (x y distance : ℚ) (pt : V3) :
    Camera × V3 × Option V3 :=
  let far := c.farP
  let c1 := c.setFar distance
  let rvp := c1.getViewProjection T
  match Mat4.invert rvp.2 with
  | none => (rvp.1, pt, none)
  | some ivp =>
    let clipSpace := Vec4.set ((x / rvp.1.rendererWidth) * 2 - 1)
      (((y / rvp.1.rendererHeight) * 2 - 1) * (-1)) 1 1
    let c2 := rvp.1.setFar far
    let ws := Vec4.transformMat4 clipSpace ivp
    let wInv := 1 / ws.w
    let p := V3.mk (ws.x * wInv) (ws.y * wInv) (ws.z * wInv)
    (c2, p, some p)

/-- `worldToScreen(x, y, z, point)` — returns the camera after the call and
the 2D screen point. -/
def worldToScreen (T : MathOps) (c : Camera) (x y z : ℚ) : Camera × ℚ × ℚ :=
  let worldSpace := Vec4.set x y z 1
  let rv := c.getView T
  let rp := rv.1.getProjection T
  let clip0 := Vec4.transformMat4 (Vec4.transformMat4 worldSpace rv.2) rp.2
  let clipSpace := if clip0.w ≠ 0 then
      V4.mk (clip0.x / clip0.w) (clip0.y / clip0.w) (clip0.z / clip0.w) clip0.w
    else clip0
  (rp.1, ((clipSpace.x + 1) / 2 * rp.1.rendererWidth,
    rp.1.rendererHeight - (clipSpace.y + 1) / 2 * rp.1.rendererHeight))

end Camera

/-- The per-attribute data of a `MeshGeometry3D` vertex attribute
(`{ buffer, componentType, stride }`), with buffer element values as naturals. -/
structure VertexData where
  buffer : List ℕ
  componentType : ℤ
  stride : ℕ
deriving DecidableEq, Repr

/-- One attribute added to the host geometry by `addAttribute`. -/
structure GeometryAttribute where
  attrName : String
  size : ℕ
  normalized : Bool
  componentType : ℤ
  stride : ℕ
  buffer : List ℕ
deriving DecidableEq, Repr

/-- The mesh geometry as `MeshShader` sees it: the optional source attribute
data, the index/attribute buffers added to the host `PIXI.Geometry`, and the
names of the shaders whose attributes were already added. -/
structure MeshGeometry3D where
  indices : Option VertexData
  positions : Option VertexData
  uvs : List VertexData
  normals : Option VertexData
  tangents : Option VertexData
  indexBuffer : Option (List ℕ)
  attributes : List GeometryAttribute
  shaderNames : List String
deriving DecidableEq, Repr

/-- `new Uint32Array(...)` element-wise conversion of index values to 32-bit
unsigned integers. -/
def toUint32 (l : List ℕ) : List ℕ :=
  l.map (· % 2 ^ 32)

namespace MeshGeometry3D

/-- The host engine's `Geometry.addIndex`, recorded as setting the geometry's
index buffer. -/
def addIndex (g : MeshGeometry3D) (buf : List ℕ) : MeshGeometry3D :=
  { g with indexBuffer := some buf }

/-- The host engine's `Geometry.addAttribute`, recorded as appending the
attribute. -/
def addAttribute (g : MeshGeometry3D) (nm : String) (buf : List ℕ) (size : ℕ)
    (normalized : Bool) (ctype : ℤ) (stride : ℕ) : MeshGeometry3D :=
  { g with attributes := g.attributes ++ [⟨nm, size, normalized, ctype, stride, buf⟩] }

end MeshGeometry3D

/-- `PIXI.State` flags assigned in `MeshShader`:
`{ culling: true, clockwiseFrontFace: false, depthTest: true }`. -/
structure RenderFlags where
  culling : Bool
  clockwiseFrontFace : Bool
  depthTest : Bool
deriving DecidableEq, Repr

/-- `PIXI.DRAW_MODES`. -/
inductive DrawMode
  | points
  | lines
  | lineLoop
  | lineStrip
  | triangles
  | triangleStrip
  | triangleFan
deriving DecidableEq, Repr

/-- The numeric values of `PIXI.DRAW_MODES`: `POINTS = 0`, `LINES = 1`,
`LINE_LOOP = 2`, `LINE_STRIP = 3`, `TRIANGLES = 4`, `TRIANGLE_STRIP = 5`,
`TRIANGLE_FAN = 6`. -/
def DrawMode.code : DrawMode → ℕ
  | .points => 0
  | .lines => 1
  | .lineLoop => 2
  | .lineStrip => 3
  | .triangles => 4
  | .triangleStrip => 5
  | .triangleFan => 6

/-- JavaScript `drawMode || default`: the argument wins unless it is absent or
falsy — and `PIXI.DRAW_MODES.POINTS` has numeric value `0`, which is falsy, so
an explicitly passed `POINTS` also falls back to the default. -/
def drawModeOr (dm : Option DrawMode) (d : DrawMode) : DrawMode :=
  match dm with
  | some m => if m.code = 0 then d else m
  | none => d

/-- The `MeshShader` class: its `name` getter (constant `"mesh-shader"` in the
base class, overridden by shaders with custom attributes), its default render
flags and its default draw mode. -/
structure MeshShader where
  name : String := "mesh-shader"
  flags : RenderFlags := ⟨true, false, true⟩
  drawMode : DrawMode := .triangles
deriving DecidableEq, Repr

/-- One observable call into the host renderer made by `MeshShader.render`. -/
inductive RenderOp
  | bindShader (name : String)
  | setRenderFlags (s : RenderFlags)
  | bindGeometry
  | draw (m : DrawMode)
deriving DecidableEq, Repr

namespace MeshShader

/-- `MeshShader.addGeometryAttributes(geometry)` — adds the index buffer
(converted to `Uint32Array`) and the `a_Position`, `a_UV1`, `a_Normal`,
`a_Tangent` attributes, each only when present in the geometry. -/
def addGeometryAttributes (_sh : MeshShader) (g : MeshGeometry3D) : MeshGeometry3D :=
  let g1 := match g.indices with
    | some ix => g.addIndex (toUint32 ix.buffer)
    | none => g
  let g2 := match g1.positions with
    | some p => g1.addAttribute "a_Position" p.buffer 3 false p.componentType p.stride
    | none => g1
  let g3 := match g2.uvs.head? with
    | some uv => g2.addAttribute "a_UV1" uv.buffer 2 false uv.componentType uv.stride
    | none => g2
  let g4 := match g3.normals with
    | some n => g3.addAttribute "a_Normal" n.buffer 3 false n.componentType n.stride
    | none => g3
  match g4.tangents with
  | some t => g4.addAttribute "a_Tangent" t.buffer 4 false t.componentType t.stride
  | none => g4

end MeshShader

namespace MeshGeometry3D

/-- Modelled from the spec: `MeshGeometry3D.hasShaderAttributes`
(src/mesh/geometry/mesh-geometry.ts, not included under src/) — per the
shader's doc comment, the shader `name` is "used for figuring out if geometry
attributes is compatible with the shader". -/
def hasShaderAttributes (g : MeshGeometry3D) (sh : MeshShader) : Bool :=
  g.shaderNames.contains sh.name

/-- Modelled from the spec: `MeshGeometry3D.addShaderAttributes`
(src/mesh/geometry/mesh-geometry.ts, not included under src/) — lets the
shader add its required attributes and records the shader's name. -/
def addShaderAttributes (g : MeshGeometry3D) (sh : MeshShader) : MeshGeometry3D :=
  let g' := sh.addGeometryAttributes g
  { g' with shaderNames := g'.shaderNames ++ [sh.name] }

end MeshGeometry3D

namespace MeshShader

/-- `MeshShader.render(mesh, renderer, state, drawMode)` — adds the shader
attributes when the geometry does not have them yet, then binds the shader,
sets the render state (`state || this.state`, where a `State` object is always
truthy, so only an absent argument falls back), binds the geometry and draws
(`drawMode || this.drawMode`, where the numeric draw mode `POINTS = 0` is
falsy and also falls back).  Returns the updated geometry and the sequence of
host-renderer calls. -/
def render (sh : MeshShader) (g : MeshGeometry3D) (st : Option RenderFlags)
    (dm : Option DrawMode) : MeshGeometry3D × List RenderOp :=
  let g' := if g.hasShaderAttributes sh then g else g.addShaderAttributes sh
  (g', [.bindShader sh.name, .setRenderFlags (st.getD sh.flags), .bindGeometry,
    .draw (drawModeOr dm sh.drawMode)])

end MeshShader

namespace Camera

/-- Validity of one cached component with respect to the parent camera's
current cache key `cid`: any stored key was stamped at some past read, so it
is at most `cid`, and when it equals `cid` the cached array holds the
component's up-to-date value `v`. -/
def compOK {β : Type} (cid : ℕ) (o : Option (MComp β)) (v : β) : Prop :=
  ∀ m, o = some m → ∀ k, m.key = some k → k ≤ cid ∧ (k = cid → m.array = v)

/-- The camera cache invariant: each of the four lazily created components is
valid for the camera's current key.  It holds for a freshly constructed camera
(all caches absent) and is preserved by the getters and setters. -/
structure Inv (T : MathOps) (c : Camera) : Prop where
  proj : compOK c.id c.projC (c.projectionUpdate T)
  tgt : compOK c.id c.targetC c.targetVal
  view : compOK c.id c.viewC (c.viewVal T)
  vp : compOK c.id c.viewProjC (c.vpVal T)

/-- Forgets the four caches; two cameras with equal `dropCaches` agree on
every non-cache field. -/
def dropCaches (c : Camera) : Camera :=
  { c with projC := none, targetC := none, viewC := none, viewProjC := none }

/-- The projection matrix as claim C2 words it: the camera's own aspect
whenever one is set (the code instead falls back to the renderer's dimensions
also when the set aspect is `0`, because `||` treats `0` as falsy). -/
def claimedProjection (T : MathOps) (c : Camera) : M4 :=
  Mat4.perspective T (c.fov * (T.pi / 180))
    (c.asp.getD (c.rendererWidth / c.rendererHeight)) c.nearP c.farP

/-- The world-space point `screenToWorld` computes on its success path: the
clip-space point of the screen position at depth 1, taken through the inverted
view-projection matrix `ivp` and the perspective division. -/
def worldPointAt (c : Camera) (x y : ℚ) (ivp : M4) : V3 :=
  let clip := Vec4.set ((x / c.rendererWidth) * 2 - 1)
    (((y / c.rendererHeight) * 2 - 1) * (-1)) 1 1
  let ws := Vec4.transformMat4 clip ivp
  ⟨ws.x * (1 / ws.w), ws.y * (1 / ws.w), ws.z * (1 / ws.w)⟩

end Camera

/-- The reference (textbook) perspective projection matrix with
`f = 1 / tan(fovy / 2)`, written with the usual `-(far + near) / (far - near)`
and `-2 * far * near / (far - near)` third-column entries. -/
def referencePerspective (T : MathOps) (fovy aspect near far : ℚ) : M4 :=
  let f := 1 / T.tan (fovy / 2)
  { m0 := f / aspect, m1 := 0, m2 := 0, m3 := 0
    m4 := 0, m5 := f, m6 := 0, m7 := 0
    m8 := 0, m9 := 0, m10 := -((far + near) / (far - near)), m11 := -1
    m12 := 0, m13 := 0, m14 := -(2 * far * near / (far - near)), m15 := 0 }

/-- The column-major `M4` as a mathematical 4×4 matrix. -/
def M4.toMatrix (m : M4) : Matrix (Fin 4) (Fin 4) ℚ :=
  !![m.m0, m.m4, m.m8, m.m12;
     m.m1, m.m5, m.m9, m.m13;
     m.m2, m.m6, m.m10, m.m14;
     m.m3, m.m7, m.m11, m.m15]

/-- A concrete interpretation of the abstract `Math` operations, used by the
concrete witnesses; the verified statements hold for every interpretation. -/
def T0 : MathOps := ⟨0, fun _ => 1, fun _ => 1⟩

/-- A concrete camera with no caches yet: at the origin looking towards
negative z, near plane 1, far plane 3, aspect 1, a 1×1 renderer. -/
def camF : Camera :=
  { idc := 0, fov := 60, nearP := 1, farP := 3, asp := some 1
    transformWorldID := 0
    world := ⟨⟨0, 0, 0⟩, ⟨0, 0, -1⟩, ⟨0, 1, 0⟩⟩
    rendererWidth := 1, rendererHeight := 1, hasParent := false
    projC := none, targetC := none, viewC := none, viewProjC := none }

/-- `camF` with the aspect set to `0` and a 2×1 renderer: the input on which
JavaScript `||`/`!` treat the set aspect as absent. -/
def camA0 : Camera :=
  { camF with asp := some 0, rendererWidth := 2, hasParent := true }

/-- `camF` with a projection component already stamped at the current key. -/
def camC1 : Camera :=
  { camF with transformWorldID := 4, projC := some ⟨some 4, Mat4.identity⟩ }

/-- The identity transform update, a concrete instance of the abstract host
`updateTransform`. -/
def updT0 : ℕ × World → ℕ × World := fun p => p

/-- The screen point claim C6 describes: the homogeneous world point taken
through the view matrix then the projection matrix, perspective-divided only
when the resulting `w` is non-zero, then mapped to pixel coordinates with the
y axis flipped. -/
def Camera.claimedScreenPoint (T : MathOps) (c : Camera) (x y z : ℚ) : ℚ × ℚ :=
  let clip := Vec4.transformMat4 (Vec4.transformMat4 (Vec4.set x y z 1) (c.viewVal T))
    (c.projectionUpdate T)
  let ndcx := if clip.w ≠ 0 then clip.x / clip.w else clip.x
  let ndcy := if clip.w ≠ 0 then clip.y / clip.w else clip.y
  ((ndcx + 1) / 2 * c.rendererWidth, c.rendererHeight - (ndcy + 1) / 2 * c.rendererHeight)

/-- A concrete `MeshShader` with the class's default name, flags and draw
mode. -/
def mshF : MeshShader := {}

/-- A concrete mesh geometry with every source attribute present and no
shader attributes added yet. -/
def gF : MeshGeometry3D :=
  { indices := some ⟨[0, 1, 2], 5123, 0⟩
    positions := some ⟨[10, 11, 12], 5126, 12⟩
    uvs := [⟨[20, 21], 5126, 8⟩]
    normals := some ⟨[30, 31, 32], 5126, 12⟩
    tangents := some ⟨[40, 41, 42, 43], 5126, 16⟩
    indexBuffer := none
    attributes := []
    shaderNames := [] }

theorem MComp.read_of_ok {β : Type} [Inhabited β] (o : Option (MComp β)) (pid : ℕ)
    (u : β → β) (v : β)
    (hOK : ∀ m, o = some m → m.key = some pid → m.array = v)
    (hu : ∀ b, u b = v) :
    (o.getD ⟨none, default⟩).read pid u = (⟨some pid, v⟩, v) := by
  cases o with
  | none => simp [MComp.read, hu]
  | some m =>
    obtain ⟨mk, ma⟩ := m
    by_cases hk : mk = some pid
    · have hv := hOK ⟨mk, ma⟩ rfl (by simpa using hk)
      subst hk
      simp_all [MComp.read]
    · simp [MComp.read, hk, hu]

namespace Camera

theorem withProjC_self (c : Camera) (m : MComp M4) (hm : c.projC = some m) :
    { c with projC := some m } = c := by
  cases c
  simp_all

theorem withTargetC_self (c : Camera) (m : MComp V3) (hm : c.targetC = some m) :
    { c with targetC := some m } = c := by
  cases c
  simp_all

theorem withViewC_self (c : Camera) (m : MComp M4) (hm : c.viewC = some m) :
    { c with viewC := some m } = c := by
  cases c
  simp_all

theorem withViewProjC_self (c : Camera) (m : MComp M4) (hm : c.viewProjC = some m) :
    { c with viewProjC := some m } = c := by
  cases c
  simp_all

theorem getProjection_eq (T : MathOps) (c : Camera)
    (h : compOK c.id c.projC (c.projectionUpdate T)) :
    c.getProjection T =
      ({ c with projC := some ⟨some c.id, c.projectionUpdate T⟩ }, c.projectionUpdate T) := by
  simp only [Camera.getProjection]
  rw [MComp.read_of_ok c.projC c.id _ (c.projectionUpdate T)
    (fun m hm hk => (h m hm c.id hk).2 rfl) (fun _ => rfl)]

theorem getTarget_eq (c : Camera)
    (h : compOK c.id c.targetC c.targetVal) :
    c.getTarget = ({ c with targetC := some ⟨some c.id, c.targetVal⟩ }, c.targetVal) := by
  simp only [Camera.getTarget]
  rw [MComp.read_of_ok c.targetC c.id _ c.targetVal
    (fun m hm hk => (h m hm c.id hk).2 rfl) (fun _ => rfl)]

theorem getProjection_hit (T : MathOps) (c : Camera) (m : MComp M4)
    (hm : c.projC = some m) (hk : m.key = some c.id) :
    c.getProjection T = (c, m.array) := by
  simp only [Camera.getProjection, hm, Option.getD_some, MComp.read, hk, if_true]
  rw [withProjC_self c m hm]

theorem getView_hit (T : MathOps) (c : Camera) (m : MComp M4)
    (hm : c.viewC = some m) (hk : m.key = some c.id) :
    c.getView T = (c, m.array) := by
  simp only [Camera.getView, hm, Option.getD_some, hk, if_true]
  rw [withViewC_self c m hm]

theorem getViewProjection_hit (T : MathOps) (c : Camera) (m : MComp M4)
    (hm : c.viewProjC = some m) (hk : m.key = some c.id) :
    c.getViewProjection T = (c, m.array) := by
  simp only [Camera.getViewProjection, hm, Option.getD_some, hk, if_true]
  rw [withViewProjC_self c m hm]

end Camera

namespace Camera

theorem getProjection_fst_drop (T : MathOps) (c : Camera) :
    ((c.getProjection T).1).dropCaches = c.dropCaches := by
  simp only [Camera.getProjection]
  rfl

theorem getTarget_fst_drop (c : Camera) :
    ((c.getTarget).1).dropCaches = c.dropCaches := by
  simp only [Camera.getTarget]
  rfl

theorem getView_fst_drop (T : MathOps) (c : Camera) :
    ((c.getView T).1).dropCaches = c.dropCaches := by
  simp only [Camera.getView]
  split
  · rfl
  · rfl

theorem getViewProjection_fst_drop (T : MathOps) (c : Camera) :
    ((c.getViewProjection T).1).dropCaches = c.dropCaches := by
  simp only [Camera.getViewProjection]
  split
  · rfl
  · show (((c.getProjection T).1.getView T).1).dropCaches = c.dropCaches
    rw [getView_fst_drop, getProjection_fst_drop]

theorem id_congr {a b : Camera} (h : a.dropCaches = b.dropCaches) : a.id = b.id := by
  have h2 : Camera.id a.dropCaches = Camera.id b.dropCaches := congrArg _ h
  exact h2

theorem world_congr {a b : Camera} (h : a.dropCaches = b.dropCaches) : a.world = b.world := by
  have h2 : Camera.world a.dropCaches = Camera.world b.dropCaches := congrArg _ h
  exact h2

theorem farP_congr {a b : Camera} (h : a.dropCaches = b.dropCaches) : a.farP = b.farP := by
  have h2 : Camera.farP a.dropCaches = Camera.farP b.dropCaches := congrArg _ h
  exact h2

theorem rendererWidth_congr {a b : Camera} (h : a.dropCaches = b.dropCaches) :
    a.rendererWidth = b.rendererWidth := by
  have h2 : Camera.rendererWidth a.dropCaches = Camera.rendererWidth b.dropCaches := congrArg _ h
  exact h2

theorem rendererHeight_congr {a b : Camera} (h : a.dropCaches = b.dropCaches) :
    a.rendererHeight = b.rendererHeight := by
  have h2 : Camera.rendererHeight a.dropCaches = Camera.rendererHeight b.dropCaches := congrArg _ h
  exact h2

theorem projectionUpdate_congr (T : MathOps) {a b : Camera} (h : a.dropCaches = b.dropCaches) :
    a.projectionUpdate T = b.projectionUpdate T := by
  have h2 : Camera.projectionUpdate T a.dropCaches = Camera.projectionUpdate T b.dropCaches :=
    congrArg _ h
  exact h2

theorem targetVal_congr {a b : Camera} (h : a.dropCaches = b.dropCaches) :
    a.targetVal = b.targetVal := by
  have h2 : Camera.targetVal a.dropCaches = Camera.targetVal b.dropCaches := congrArg _ h
  exact h2

theorem viewVal_congr (T : MathOps) {a b : Camera} (h : a.dropCaches = b.dropCaches) :
    a.viewVal T = b.viewVal T := by
  have h2 : Camera.viewVal T a.dropCaches = Camera.viewVal T b.dropCaches := congrArg _ h
  exact h2

theorem vpVal_congr (T : MathOps) {a b : Camera} (h : a.dropCaches = b.dropCaches) :
    a.vpVal T = b.vpVal T := by
  have h2 : Camera.vpVal T a.dropCaches = Camera.vpVal T b.dropCaches := congrArg _ h
  exact h2

theorem getProjection_snd (T : MathOps) (c : Camera)
    (h : compOK c.id c.projC (c.projectionUpdate T)) :
    (c.getProjection T).2 = c.projectionUpdate T := by
  rw [getProjection_eq T c h]

theorem getTarget_snd (c : Camera)
    (h : compOK c.id c.targetC c.targetVal) :
    (c.getTarget).2 = c.targetVal := by
  rw [getTarget_eq c h]

theorem getView_snd (T : MathOps) (c : Camera)
    (ht : compOK c.id c.targetC c.targetVal)
    (hv : compOK c.id c.viewC (c.viewVal T)) :
    (c.getView T).2 = c.viewVal T := by
  simp only [Camera.getView]
  split
  · rename_i hcond
    cases hvc : c.viewC with
    | none => rw [hvc] at hcond; simp at hcond
    | some m =>
      rw [hvc] at hcond
      simp only [Option.getD_some] at hcond ⊢
      exact (hv m hvc c.id hcond).2 rfl
  · rw [getTarget_eq c ht]
    simp [Camera.viewVal]

end Camera

namespace Camera

theorem inv_fresh (T : MathOps) (c : Camera) (h1 : c.projC = none) (h2 : c.targetC = none)
    (h3 : c.viewC = none) (h4 : c.viewProjC = none) : Inv T c := by
  constructor <;> intro m hm k hk <;> simp_all

theorem compOK_mono {β : Type} {cid cid' : ℕ} (hlt : cid < cid') {o : Option (MComp β)}
    {v v' : β} (h : compOK cid o v) : compOK cid' o v' := by
  intro m hm k hk
  obtain ⟨h1, _⟩ := h m hm k hk
  exact ⟨by omega, fun he => absurd he (by omega)⟩

theorem setFar_inv (T : MathOps) (c : Camera) (v : ℚ) (h : Inv T c) : Inv T (c.setFar v) := by
  unfold Camera.setFar
  split
  · exact ⟨compOK_mono (by simp [Camera.id]) h.proj, compOK_mono (by simp [Camera.id]) h.tgt,
      compOK_mono (by simp [Camera.id]) h.view, compOK_mono (by simp [Camera.id]) h.vp⟩
  · exact h

theorem setFar_farP (c : Camera) (v : ℚ) : (c.setFar v).farP = v := by
  unfold Camera.setFar
  split
  · rfl
  · rename_i hne
    simp at hne
    simp [hne]

theorem setFar_rendererWidth (c : Camera) (v : ℚ) :
    (c.setFar v).rendererWidth = c.rendererWidth := by
  unfold Camera.setFar
  split <;> rfl

theorem setFar_rendererHeight (c : Camera) (v : ℚ) :
    (c.setFar v).rendererHeight = c.rendererHeight := by
  unfold Camera.setFar
  split <;> rfl

theorem getProjection_inv (T : MathOps) (c : Camera) (h : Inv T c) :
    Inv T ((c.getProjection T).1) := by
  rw [getProjection_eq T c h.proj]
  refine ⟨?_, h.tgt, h.view, h.vp⟩
  intro m hm k hk
  simp only [Option.some.injEq] at hm
  subst hm
  simp only [Option.some.injEq] at hk
  subst hk
  exact ⟨le_refl _, fun _ => rfl⟩

theorem getView_inv (T : MathOps) (c : Camera) (h : Inv T c) :
    Inv T ((c.getView T).1) := by
  simp only [Camera.getView]
  split
  · rename_i hcond
    cases hvc : c.viewC with
    | none => rw [hvc] at hcond; simp at hcond
    | some m =>
      simp only [Option.getD_some]
      rw [withViewC_self c m hvc]
      exact h
  · rw [getTarget_eq c h.tgt]
    refine ⟨h.proj, ?_, ?_, h.vp⟩
    · intro m hm k hk
      simp only [Option.some.injEq] at hm
      subst hm
      simp only [Option.some.injEq] at hk
      subst hk
      exact ⟨le_refl _, fun _ => rfl⟩
    · intro m hm k hk
      simp only [Option.some.injEq] at hm
      subst hm
      simp only [Option.some.injEq] at hk
      subst hk
      exact ⟨le_refl _, fun _ => rfl⟩

theorem getViewProjection_snd (T : MathOps) (c : Camera) (h : Inv T c) :
    (c.getViewProjection T).2 = c.vpVal T := by
  simp only [Camera.getViewProjection]
  split
  · rename_i hcond
    cases hvc : c.viewProjC with
    | none => rw [hvc] at hcond; simp at hcond
    | some m =>
      rw [hvc] at hcond
      simp only [Option.getD_some] at hcond ⊢
      exact (h.vp m hvc c.id hcond).2 rfl
  · have hps := getProjection_snd T c h.proj
    have hinvp := getProjection_inv T c h
    have hvs := getView_snd T ((c.getProjection T).1) hinvp.tgt hinvp.view
    have hvv : ((c.getProjection T).1).viewVal T = c.viewVal T :=
      viewVal_congr T (getProjection_fst_drop T c)
    simp only [hps, hvs, hvv, Camera.vpVal]

end Camera

theorem perspective_eq_reference (T : MathOps) (fovy aspect near far : ℚ) :
    Mat4.perspective T fovy aspect near far = referencePerspective T fovy aspect near far := by
  have key : ((near - far)⁻¹ : ℚ) = -(far - near)⁻¹ := by
    rw [← neg_sub far near, inv_neg]
  have h10 : (far + near) * ((near - far)⁻¹ : ℚ) = -((far + near) / (far - near)) := by
    rw [key]; ring
  have h14 : 2 * far * near * ((near - far)⁻¹ : ℚ) = -(2 * far * near / (far - near)) := by
    rw [key]; ring
  simp [Mat4.perspective, referencePerspective, h10, h14]

theorem toMatrix_multiply (a b : M4) :
    (Mat4.multiply a b).toMatrix = a.toMatrix * b.toMatrix := by
  ext i j
  fin_cases i <;> fin_cases j <;>
    simp [Mat4.multiply, M4.toMatrix, Matrix.mul_apply, Fin.sum_univ_four] <;> ring

/-- C1: the camera's cache key `id` is the transform's `_worldID` plus the
internal dirty counter; a matrix component whose stored key still equals the
current `id` is returned from its cache with no recomputation and no state
change; setting `fieldOfView`, `near`, `far` or `aspect` to a value different
from the current one increments the dirty counter and touches nothing else,
while setting the current value leaves the camera (counter and caches)
entirely unchanged. -/
theorem camera_cache_key_lazy_and_setters (T : MathOps) (c : Camera) :
    c.id = c.transformWorldID + c.idc
    ∧ (∀ m, c.projC = some m → m.key = some c.id → c.getProjection T = (c, m.array))
    ∧ (∀ m, c.viewC = some m → m.key = some c.id → c.getView T = (c, m.array))
    ∧ (∀ m, c.viewProjC = some m → m.key = some c.id → c.getViewProjection T = (c, m.array))
    ∧ (∀ v, v ≠ c.fov → c.setFieldOfView v = { c with fov := v, idc := c.idc + 1 })
    ∧ c.setFieldOfView c.fov = c
    ∧ (∀ v, v ≠ c.nearP → c.setNear v = { c with nearP := v, idc := c.idc + 1 })
    ∧ c.setNear c.nearP = c
    ∧ (∀ v, v ≠ c.farP → c.setFar v = { c with farP := v, idc := c.idc + 1 })
    ∧ c.setFar c.farP = c
    ∧ (∀ v, v ≠ c.asp → c.setAspect v = { c with asp := v, idc := c.idc + 1 })
    ∧ c.setAspect c.asp = c := by
  refine ⟨rfl,
    fun m hm hk => Camera.getProjection_hit T c m hm hk,
    fun m hm hk => Camera.getView_hit T c m hm hk,
    fun m hm hk => Camera.getViewProjection_hit T c m hm hk,
    fun v hv => ?_, ?_, fun v hv => ?_, ?_, fun v hv => ?_, ?_, fun v hv => ?_, ?_⟩
  · rw [Camera.setFieldOfView, if_pos (Ne.symm hv)]
  · simp [Camera.setFieldOfView]
  · rw [Camera.setNear, if_pos (Ne.symm hv)]
  · simp [Camera.setNear]
  · rw [Camera.setFar, if_pos (Ne.symm hv)]
  · simp [Camera.setFar]
  · rw [Camera.setAspect, if_pos (Ne.symm hv)]
  · simp [Camera.setAspect]

/-- Witness for C1 at a concrete camera whose projection component is stamped
at the current key `4`: the read hits the cache and a near-plane change bumps
the counter. -/
theorem camera_cache_key_lazy_and_setters_witness :
    camC1.getProjection T0 = (camC1, Mat4.identity)
    ∧ camC1.setNear 7 = { camC1 with nearP := 7, idc := camC1.idc + 1 } :=
  ⟨(camera_cache_key_lazy_and_setters T0 camC1).2.1 ⟨some 4, Mat4.identity⟩ rfl (by decide),
   (camera_cache_key_lazy_and_setters T0 camC1).2.2.2.2.2.2.1 7 (by decide)⟩

/-- C10: `Camera.main` is set by the first construction and never replaced by
later ones: folding the constructor's `registerMain` update over any sequence
of constructed cameras starting from the unset state yields the first
camera. -/
theorem camera_main_first_construction (first : Camera) (rest : List Camera) :
    List.foldl Camera.registerMain (Camera.registerMain none first) rest = some first := by
  rw [show Camera.registerMain none first = some first from rfl]
  induction rest with
  | nil => rfl
  | cons a as ih =>
    rw [List.foldl_cons, show Camera.registerMain (some first) a = some first from rfl, ih]

/-- C2 fails as stated: for a camera whose aspect is set to `0`, the code's
`this._aspect || width / height` treats the set aspect as absent (JavaScript
`||` falls through on `0`), so the projection is not built from the camera's
own aspect.  `camA0` has `aspect = some 0` on a 2×1 renderer; its cache
invariant holds (no caches exist yet) and the matrix the getter returns
differs from the claim's matrix built from aspect `0`. -/
theorem camera_projection_counterexample :
    Camera.Inv T0 camA0 ∧ (camA0.getProjection T0).2 ≠ Camera.claimedProjection T0 camA0 := by
  refine ⟨Camera.inv_fresh T0 camA0 rfl rfl rfl rfl, ?_⟩
  rw [Camera.getProjection_snd T0 camA0 (Camera.inv_fresh T0 camA0 rfl rfl rfl rfl).proj]
  intro h
  exact absurd (congrArg M4.m0 h)
    (by norm_num [Camera.claimedProjection, camA0, camF, T0,
      Mat4.perspective, Camera.effectiveAspect, Camera.projectionUpdate])

/-- C2 (amended): the `projection` getter returns the perspective matrix built
from `fieldOfView` converted from degrees to radians, the camera's own aspect
when it is set to a non-zero value (otherwise renderer width divided by
renderer height), and the near and far planes; the matrix equals the reference
perspective-matrix definition. -/
theorem camera_projection_amended (T : MathOps) (c : Camera) (h : Camera.Inv T c) :
    (c.getProjection T).2 =
      Mat4.perspective T (c.fov * (T.pi / 180)) c.effectiveAspect c.nearP c.farP
    ∧ (c.getProjection T).2 =
      referencePerspective T (c.fov * (T.pi / 180)) c.effectiveAspect c.nearP c.farP
    ∧ (c.asp = none → c.effectiveAspect = c.rendererWidth / c.rendererHeight)
    ∧ (∀ a, c.asp = some a → a ≠ 0 → c.effectiveAspect = a) := by
  have hp := Camera.getProjection_snd T c h.proj
  refine ⟨hp, by rw [hp, Camera.projectionUpdate, perspective_eq_reference], ?_, ?_⟩
  · intro ha
    simp [Camera.effectiveAspect, ha]
  · intro a ha hnz
    simp [Camera.effectiveAspect, ha, hnz]

/-- Witness for the amended C2 at `camF` (aspect 1, near 1, far 3, 60° field
of view). -/
theorem camera_projection_amended_witness :
    (camF.getProjection T0).2 =
      Mat4.perspective T0 (camF.fov * (T0.pi / 180)) camF.effectiveAspect camF.nearP camF.farP :=
  (camera_projection_amended T0 camF (Camera.inv_fresh T0 camF rfl rfl rfl rfl)).1

/-- C3: the `target` getter returns the world position plus the world forward
vector, and the `view` getter returns the look-at matrix built from the world
position, that target and the world up vector. -/
theorem camera_target_and_view (T : MathOps) (c : Camera) (h : Camera.Inv T c) :
    (c.getTarget).2 = Vec3.add c.world.position c.world.forward
    ∧ (c.getView T).2 = Mat4.lookAt T c.world.position (c.getTarget).2 c.world.up := by
  have h1 := Camera.getTarget_snd c h.tgt
  have h2 := Camera.getView_snd T c h.tgt h.view
  exact ⟨h1, by rw [h2, h1]; rfl⟩

/-- Witness for C3 at `camF`. -/
theorem camera_target_and_view_witness :
    (camF.getTarget).2 = Vec3.add camF.world.position camF.world.forward
    ∧ (camF.getView T0).2 = Mat4.lookAt T0 camF.world.position (camF.getTarget).2 camF.world.up :=
  camera_target_and_view T0 camF (Camera.inv_fresh T0 camF rfl rfl rfl rfl)

/-- C4: the `viewProjection` getter returns exactly `Mat4.multiply` of the
projection and view getters' matrices, which is their matrix product with the
projection on the left. -/
theorem camera_viewprojection_product (T : MathOps) (c : Camera) (h : Camera.Inv T c) :
    (c.getViewProjection T).2 = Mat4.multiply (c.getProjection T).2 (c.getView T).2
    ∧ ((c.getViewProjection T).2).toMatrix =
      ((c.getProjection T).2).toMatrix * ((c.getView T).2).toMatrix := by
  have hp := Camera.getProjection_snd T c h.proj
  have hv := Camera.getView_snd T c h.tgt h.view
  have hvp := Camera.getViewProjection_snd T c h
  refine ⟨by rw [hp, hv, hvp]; rfl, ?_⟩
  rw [hp, hv, hvp, show c.vpVal T = Mat4.multiply (c.projectionUpdate T) (c.viewVal T) from rfl]
  exact toMatrix_multiply _ _

/-- Witness for C4 at `camF`. -/
theorem camera_viewprojection_product_witness :
    (camF.getViewProjection T0).2 = Mat4.multiply (camF.getProjection T0).2 (camF.getView T0).2 :=
  (camera_viewprojection_product T0 camF (Camera.inv_fresh T0 camF rfl rfl rfl rfl)).1

/-- C5: when inverting the view-projection matrix (computed with the far plane
moved to `distance`) fails, `screenToWorld` returns no result and leaves the
output point untouched; otherwise it returns the output point set to the world
coordinates of the screen position at the given distance. -/
theorem camera_screenToWorld_cases (T : MathOps) (c : Camera) (x y distance : ℚ) (pt : V3)
    (h : Camera.Inv T c) :
    (Mat4.invert ((c.setFar distance).vpVal T) = none →
      (c.screenToWorld T x y distance pt).2 = (pt, none))
    ∧ (∀ ivp, Mat4.invert ((c.setFar distance).vpVal T) = some ivp →
      (c.screenToWorld T x y distance pt).2 =
        (c.worldPointAt x y ivp, some (c.worldPointAt x y ivp))) := by
  have hinv1 : Camera.Inv T (c.setFar distance) := Camera.setFar_inv T c distance h
  have hvp := Camera.getViewProjection_snd T (c.setFar distance) hinv1
  have hw : ((c.setFar distance).getViewProjection T).1.rendererWidth = c.rendererWidth := by
    rw [Camera.rendererWidth_congr (Camera.getViewProjection_fst_drop T (c.setFar distance))]
    exact Camera.setFar_rendererWidth c distance
  have hh : ((c.setFar distance).getViewProjection T).1.rendererHeight = c.rendererHeight := by
    rw [Camera.rendererHeight_congr (Camera.getViewProjection_fst_drop T (c.setFar distance))]
    exact Camera.setFar_rendererHeight c distance
  constructor
  · intro hnone
    simp only [Camera.screenToWorld, hvp, hnone]
  · intro ivp hsome
    simp only [Camera.screenToWorld, hvp, hsome, hw, hh, Camera.worldPointAt]

/-- Witness for C5: a camera whose view-projection at `distance = near = 1`
is singular; `screenToWorld` returns nothing and the point keeps its previous
contents `(9, 9, 9)`. -/
theorem camera_screenToWorld_cases_witness :
    (camF.screenToWorld T0 (1/2) (1/2) 1 ⟨9, 9, 9⟩).2 = (⟨9, 9, 9⟩, none) :=
  (camera_screenToWorld_cases T0 camF (1/2) (1/2) 1 ⟨9, 9, 9⟩
      (Camera.inv_fresh T0 camF rfl rfl rfl rfl)).1
    (by norm_num [camF, T0, Camera.setFar, Camera.vpVal, Camera.projectionUpdate,
      Camera.viewVal, Camera.targetVal, Camera.effectiveAspect, Vec3.add, Mat4.perspective,
      Mat4.lookAt, Mat4.multiply, Mat4.invert, Mat4.hypot3, Mat4.glEpsilon, Mat4.identity])

/-- C6: `worldToScreen` takes the homogeneous world point through the view
matrix then the projection matrix, divides by `w` only when `w` is non-zero,
and maps to pixels with the y axis flipped. -/
theorem camera_worldToScreen_formula (T : MathOps) (c : Camera) (x y z : ℚ)
    (h : Camera.Inv T c) :
    (c.worldToScreen T x y z).2 = c.claimedScreenPoint T x y z := by
  have hv := Camera.getView_snd T c h.tgt h.view
  have hinv2 := Camera.getView_inv T c h
  have hp := Camera.getProjection_snd T ((c.getView T).1) hinv2.proj
  have hpu : ((c.getView T).1).projectionUpdate T = c.projectionUpdate T :=
    Camera.projectionUpdate_congr T (Camera.getView_fst_drop T c)
  have hw : ((c.getView T).1.getProjection T).1.rendererWidth = c.rendererWidth := by
    rw [Camera.rendererWidth_congr (Camera.getProjection_fst_drop T ((c.getView T).1)),
      Camera.rendererWidth_congr (Camera.getView_fst_drop T c)]
  have hh : ((c.getView T).1.getProjection T).1.rendererHeight = c.rendererHeight := by
    rw [Camera.rendererHeight_congr (Camera.getProjection_fst_drop T ((c.getView T).1)),
      Camera.rendererHeight_congr (Camera.getView_fst_drop T c)]
  simp only [Camera.worldToScreen, Camera.claimedScreenPoint, hv, hp, hpu, hw, hh]
  split_ifs <;> rfl

/-- Witness for C6 at `camF` and the world point `(0, 0, -2)`. -/
theorem camera_worldToScreen_formula_witness :
    (camF.worldToScreen T0 0 0 (-2)).2 = camF.claimedScreenPoint T0 0 0 (-2) :=
  camera_worldToScreen_formula T0 camF 0 0 (-2) (Camera.inv_fresh T0 camF rfl rfl rfl rfl)

/-- C7 fails as stated: when the inversion fails, the early `return` is taken
before `this.far` is restored.  Concretely, `camF` has `far = 3`; calling
`screenToWorld` with `distance = 1` (equal to the near plane, which makes the
view-projection singular) leaves the camera's far plane at `1`, not `3`. -/
theorem camera_screenToWorld_far_counterexample :
    (camF.screenToWorld T0 0 0 1 ⟨0, 0, 0⟩).1.farP ≠ camF.farP := by
  have hinv : Camera.Inv T0 (camF.setFar 1) :=
    Camera.setFar_inv T0 camF 1 (Camera.inv_fresh T0 camF rfl rfl rfl rfl)
  have hnone : Mat4.invert ((camF.setFar 1).vpVal T0) = none := by
    norm_num [camF, T0, Camera.setFar, Camera.vpVal, Camera.projectionUpdate, Camera.viewVal,
      Camera.targetVal, Camera.effectiveAspect, Vec3.add, Mat4.perspective, Mat4.lookAt,
      Mat4.multiply, Mat4.invert, Mat4.hypot3, Mat4.glEpsilon, Mat4.identity]
  have hvp := Camera.getViewProjection_snd T0 (camF.setFar 1) hinv
  simp only [Camera.screenToWorld, hvp, hnone]
  have hfar : ((camF.setFar 1).getViewProjection T0).1.farP = 1 := by
    rw [Camera.farP_congr (Camera.getViewProjection_fst_drop T0 (camF.setFar 1))]
    exact Camera.setFar_farP camF 1
  rw [hfar]
  norm_num [camF]

/-- C7 (amended): the far plane is restored on the success path, but on the
inversion-failure early return the far plane keeps the `distance` argument. -/
theorem camera_screenToWorld_far_amended (T : MathOps) (c : Camera) (x y distance : ℚ)
    (pt : V3) :
    ((c.screenToWorld T x y distance pt).2.2.isSome = true →
      (c.screenToWorld T x y distance pt).1.farP = c.farP)
    ∧ ((c.screenToWorld T x y distance pt).2.2 = none →
      (c.screenToWorld T x y distance pt).1.farP = distance) := by
  have hfar1 : ((c.setFar distance).getViewProjection T).1.farP = distance := by
    rw [Camera.farP_congr (Camera.getViewProjection_fst_drop T (c.setFar distance))]
    exact Camera.setFar_farP c distance
  simp only [Camera.screenToWorld]
  cases hmv : Mat4.invert ((c.setFar distance).getViewProjection T).2 with
  | none =>
    simp only [hmv]
    exact ⟨fun hs => by simp at hs, fun _ => hfar1⟩
  | some ivp =>
    simp only [hmv]
    exact ⟨fun _ => Camera.setFar_farP _ c.farP, fun hn => by simp at hn⟩

/-- Witness for the amended C7: on the singular input the far plane ends at
the distance argument `1`. -/
theorem camera_screenToWorld_far_amended_witness :
    (camF.screenToWorld T0 0 0 1 ⟨0, 0, 0⟩).1.farP = 1 :=
  (camera_screenToWorld_far_amended T0 camF 0 0 1 ⟨0, 0, 0⟩).2
    (by
      have hinv : Camera.Inv T0 (camF.setFar 1) :=
        Camera.setFar_inv T0 camF 1 (Camera.inv_fresh T0 camF rfl rfl rfl rfl)
      have hnone : Mat4.invert ((camF.setFar 1).vpVal T0) = none := by
        norm_num [camF, T0, Camera.setFar, Camera.vpVal, Camera.projectionUpdate,
          Camera.viewVal, Camera.targetVal, Camera.effectiveAspect, Vec3.add, Mat4.perspective,
          Mat4.lookAt, Mat4.multiply, Mat4.invert, Mat4.hypot3, Mat4.glEpsilon, Mat4.identity]
      have hvp := Camera.getViewProjection_snd T0 (camF.setFar 1) hinv
      simp only [Camera.screenToWorld, hvp, hnone])

theorem jsFalsy_iff (a : Option ℚ) : jsFalsy a = true ↔ (a = none ∨ a = some 0) := by
  cases a <;> simp [jsFalsy]

/-- C8 fails as stated: `camA0` has an explicitly set aspect (`some 0`) and a
parent, yet the prerender callback increments the dirty counter, because
`!this._aspect` treats the set aspect `0` as absent. -/
theorem camera_prerender_counterexample :
    ¬(((camA0.prerender updT0).idc ≠ camA0.idc) ↔ camA0.asp = none) := by
  decide

/-- C8 (amended): the prerender callback increments the dirty counter exactly
when the aspect is absent or set to `0` (JavaScript falsiness of
`this._aspect`), and manually updates the transform exactly when the camera
has no parent; with a non-zero aspect set and a parent present it changes
nothing. -/
theorem camera_prerender_amended (updT : ℕ × World → ℕ × World) (c : Camera) :
    ((c.prerender updT).idc = c.idc + 1 ↔ jsFalsy c.asp = true)
    ∧ ((c.prerender updT).idc = c.idc ↔ jsFalsy c.asp = false)
    ∧ (jsFalsy c.asp = true ↔ (c.asp = none ∨ c.asp = some 0))
    ∧ (c.hasParent = true →
        (c.prerender updT).transformWorldID = c.transformWorldID
        ∧ (c.prerender updT).world = c.world)
    ∧ (c.hasParent = false →
        ((c.prerender updT).transformWorldID, (c.prerender updT).world) =
          updT (c.transformWorldID, c.world))
    ∧ (∀ a, c.asp = some a → a ≠ 0 → c.hasParent = true → c.prerender updT = c) := by
  refine ⟨?_, ?_, jsFalsy_iff c.asp, ?_, ?_, ?_⟩
  · cases hfj : jsFalsy c.asp <;> cases hpar : c.hasParent <;>
      simp [Camera.prerender, hfj, hpar]
  · cases hfj : jsFalsy c.asp <;> cases hpar : c.hasParent <;>
      simp [Camera.prerender, hfj, hpar]
  · intro hpar
    cases hfj : jsFalsy c.asp <;> simp [Camera.prerender, hfj, hpar]
  · intro hpar
    cases hfj : jsFalsy c.asp <;> simp [Camera.prerender, hfj, hpar]
  · intro a hsa hnz hpar
    have hfj : jsFalsy c.asp = false := by simp [hsa, jsFalsy, hnz]
    simp [Camera.prerender, hfj, hpar]

/-- Witness for the amended C8: the falsy-aspect camera gets its counter
bumped, and a camera with aspect `1` and a parent is left unchanged. -/
theorem camera_prerender_amended_witness :
    (camA0.prerender updT0).idc = camA0.idc + 1
    ∧ ({ camF with hasParent := true } : Camera).prerender updT0 =
      { camF with hasParent := true } :=
  ⟨(camera_prerender_amended updT0 camA0).1.mpr (by decide),
   (camera_prerender_amended updT0 { camF with hasParent := true }).2.2.2.2.2 1 rfl
     (by norm_num) rfl⟩

theorem addGeometryAttributes_shaderNames (sh : MeshShader) (g : MeshGeometry3D) :
    (sh.addGeometryAttributes g).shaderNames = g.shaderNames := by
  rcases g with ⟨gi, gp, gu, gn, gt, gib, gat, gsn⟩
  unfold MeshShader.addGeometryAttributes
  cases gi <;> cases gp <;> cases gu <;> cases gn <;> cases gt <;>
    simp [MeshGeometry3D.addIndex, MeshGeometry3D.addAttribute]

theorem addGeometryAttributes_indexBuffer (sh : MeshShader) (g : MeshGeometry3D) :
    (sh.addGeometryAttributes g).indexBuffer =
      (match g.indices with
       | some ix => some (toUint32 ix.buffer)
       | none => g.indexBuffer) := by
  rcases g with ⟨gi, gp, gu, gn, gt, gib, gat, gsn⟩
  unfold MeshShader.addGeometryAttributes
  cases gi <;> cases gp <;> cases gu <;> cases gn <;> cases gt <;>
    simp [MeshGeometry3D.addIndex, MeshGeometry3D.addAttribute]

theorem addGeometryAttributes_attrNames (sh : MeshShader) (g : MeshGeometry3D) :
    (sh.addGeometryAttributes g).attributes.map GeometryAttribute.attrName =
      g.attributes.map GeometryAttribute.attrName
        ++ (if g.positions.isSome then ["a_Position"] else [])
        ++ (if g.uvs.head?.isSome then ["a_UV1"] else [])
        ++ (if g.normals.isSome then ["a_Normal"] else [])
        ++ (if g.tangents.isSome then ["a_Tangent"] else []) := by
  rcases g with ⟨gi, gp, gu, gn, gt, gib, gat, gsn⟩
  unfold MeshShader.addGeometryAttributes
  cases gi <;> cases gp <;> cases gu <;> cases gn <;> cases gt <;>
    simp [MeshGeometry3D.addIndex, MeshGeometry3D.addAttribute]

theorem hasShaderAttributes_add (sh : MeshShader) (g : MeshGeometry3D) :
    (g.addShaderAttributes sh).hasShaderAttributes sh = true := by
  simp [MeshGeometry3D.hasShaderAttributes, MeshGeometry3D.addShaderAttributes,
    addGeometryAttributes_shaderNames]

/-- C9 fails as stated: `drawMode || this.drawMode` treats an explicitly
passed `PIXI.DRAW_MODES.POINTS` (numeric value `0`) as falsy, so the code
draws with the default `TRIANGLES`, not with the given mode as the claim's
"draws with the given draw mode" asserts.  Concretely, the default shader on
the fresh geometry `gF`, called with draw mode `POINTS`, does not produce the
claimed call sequence that ends in `draw POINTS`. -/
theorem meshshader_render_drawmode_counterexample :
    (mshF.render gF none (some DrawMode.points)).2 ≠
      [RenderOp.bindShader mshF.name,
       RenderOp.setRenderFlags ((none : Option RenderFlags).getD mshF.flags),
       RenderOp.bindGeometry,
       RenderOp.draw ((some DrawMode.points).getD mshF.drawMode)] := by
  decide

/-- C9 (amended): `MeshShader.render` adds the shader's required geometry
attributes (index buffer converted to 32-bit unsigned integers, position,
first UV set, normal and tangent attributes, each only when present) exactly
when the geometry does not already have this shader's attributes; it then
binds the shader, sets the render state (the given one or the default), binds
the geometry and draws with `drawMode || this.drawMode` — the given mode when
it is given and non-zero, otherwise the default (`POINTS` has numeric value
`0` and falls back like an omitted mode).  Attributes are added at most once
per geometry/shader pair, and after the call — hence whenever the draw is
issued — the geometry has the shader's attributes. -/
theorem meshshader_render_spec (sh : MeshShader) (g : MeshGeometry3D)
    (st : Option RenderFlags) (dm : Option DrawMode) :
    (g.hasShaderAttributes sh = true → (sh.render g st dm).1 = g)
    ∧ (g.hasShaderAttributes sh = false → (sh.render g st dm).1 = g.addShaderAttributes sh)
    ∧ ((sh.render g st dm).1).hasShaderAttributes sh = true
    ∧ (sh.render ((sh.render g st dm).1) st dm).1 = (sh.render g st dm).1
    ∧ (sh.render g st dm).2 =
        [RenderOp.bindShader sh.name, RenderOp.setRenderFlags (st.getD sh.flags),
         RenderOp.bindGeometry, RenderOp.draw (drawModeOr dm sh.drawMode)]
    ∧ (∀ m, dm = some m → m.code ≠ 0 → drawModeOr dm sh.drawMode = m)
    ∧ (dm = none → drawModeOr dm sh.drawMode = sh.drawMode)
    ∧ (dm = some DrawMode.points → drawModeOr dm sh.drawMode = sh.drawMode)
    ∧ ((g.addShaderAttributes sh).indexBuffer =
        match g.indices with
        | some ix => some (toUint32 ix.buffer)
        | none => g.indexBuffer)
    ∧ ((g.addShaderAttributes sh).attributes.map GeometryAttribute.attrName =
        g.attributes.map GeometryAttribute.attrName
          ++ (if g.positions.isSome then ["a_Position"] else [])
          ++ (if g.uvs.head?.isSome then ["a_UV1"] else [])
          ++ (if g.normals.isSome then ["a_Normal"] else [])
          ++ (if g.tangents.isSome then ["a_Tangent"] else [])) := by
  have render_fst : ∀ (g' : MeshGeometry3D),
      (sh.render g' st dm).1 =
        if g'.hasShaderAttributes sh = true then g' else g'.addShaderAttributes sh :=
    fun g' => rfl
  have hAfter : ((sh.render g st dm).1).hasShaderAttributes sh = true := by
    rw [render_fst g]
    by_cases hH : g.hasShaderAttributes sh = true
    · simp [hH]
    · have hH' : g.hasShaderAttributes sh = false := by simp_all
      simp [hH', hasShaderAttributes_add]
  refine ⟨fun hH => by rw [render_fst g, if_pos hH],
    fun hH => by rw [render_fst g, hH]; simp,
    hAfter,
    by rw [render_fst ((sh.render g st dm).1), hAfter]; simp,
    rfl,
    fun m hm hnz => by simp [drawModeOr, hm, hnz],
    fun hn => by simp [drawModeOr, hn],
    fun hp => by simp [drawModeOr, hp, DrawMode.code],
    addGeometryAttributes_indexBuffer sh g,
    addGeometryAttributes_attrNames sh g⟩

/-- Witness for the amended C9: the default mesh shader on a fully populated
fresh geometry adds its attributes and leaves the geometry shader-compatible,
and an explicitly passed `POINTS` draw mode falls back to the default. -/
theorem meshshader_render_spec_witness :
    (mshF.render gF none none).1 = gF.addShaderAttributes mshF
    ∧ ((mshF.render gF none none).1).hasShaderAttributes mshF = true
    ∧ drawModeOr (some DrawMode.points) mshF.drawMode = mshF.drawMode
    ∧ drawModeOr (some DrawMode.lines) mshF.drawMode = DrawMode.lines :=
  ⟨(meshshader_render_spec mshF gF none none).2.1 rfl,
   (meshshader_render_spec mshF gF none none).2.2.1,
   (meshshader_render_spec mshF gF none (some DrawMode.points)).2.2.2.2.2.2.2.1 rfl,
   (meshshader_render_spec mshF gF none (some DrawMode.lines)).2.2.2.2.2.1
     DrawMode.lines rfl (by decide)⟩
